import Mathlib

/-!
Shallow embedding, in Lean 4, of the `end_pro` blog/helpdesk backend
(FastAPI + SQLAlchemy) together with theorems settling the frozen claims
about it.  Database tables are modelled as Lean lists of rows, handlers as
pure functions from request data and table contents to a response envelope
and updated tables, mirroring the Python handler code statement by
statement.
-/

set_option maxHeartbeats 1000000

namespace EndPro

/-- A row of the `comment` table (src/models.py, class `Comment`).
`created_at` is a timestamp modelled as a natural number. -/
structure Comment where
  id : Nat
  post_id : Nat
  parent_id : Option Nat
  author_name : String
  author_email : Option String
  content : String
  created_at : Nat
  user_id : Option Nat
deriving DecidableEq, Repr

/-- A node of the nested comment tree built by `build_comment_tree`
(src/api/comments.py): the serialized comment fields plus the `replies`
list of direct children. -/
inductive CommentNode : Type where
  | mk (id post_id : Nat) (parent_id : Option Nat) (author_name : String)
      (author_email : Option String) (content : String) (created_at : Nat)
      (replies : List CommentNode) : CommentNode
deriving Repr

/-- The `id` field of a tree node. -/
def CommentNode.id : CommentNode → Nat
  | .mk i _ _ _ _ _ _ _ => i

/-- The `replies` field of a tree node. -/
def CommentNode.replies : CommentNode → List CommentNode
  | .mk _ _ _ _ _ _ _ r => r

/-- `build_comment_tree` (src/api/comments.py lines 15-31): collect, in list
order, the comments whose `parent_id` equals the query, and recursively
build each of their `replies` lists from the full list.  The Python
function recurses without a bound; `fuel` bounds the recursion depth, and
callers pass the list length, which is enough for every input whose parent
links are acyclic (as holds for rows created through the API). -/
def build_comment_tree (fuel : Nat) (comments : List Comment)
    (parent_id : Option Nat) : List CommentNode :=
  match fuel with
  | 0 => []
  | f + 1 =>
    (comments.filter (fun c => c.parent_id == parent_id)).map
      (fun c => CommentNode.mk c.id c.post_id c.parent_id c.author_name
        c.author_email c.content c.created_at
        (build_comment_tree f comments (some c.id)))

/-- Number of nodes with id `y` anywhere in a forest. -/
def countList (y : Nat) : List CommentNode → Nat
  | [] => 0
  | CommentNode.mk i _ _ _ _ _ _ rs :: ns =>
    (if i = y then 1 else 0) + countList y rs + countList y ns

/-- Number of occurrences of a node with id `y` as a direct child (member of
the `replies` list) of a node with id `p`, anywhere in a forest. -/
def childList (p y : Nat) : List CommentNode → Nat
  | [] => 0
  | CommentNode.mk i _ _ _ _ _ _ rs :: ns =>
    (if i = p then List.count y (rs.map CommentNode.id) else 0)
      + childList p y rs + childList p y ns

/-- Attachment flag of one comment given the flags of the comments
processed before it: true when its parent is null, or when its declared
parent occurs among the processed comments and is itself attached. -/
def attachFlag (acc : List (Comment × Bool)) (c : Comment) : Bool :=
  match c.parent_id with
  | none => true
  | some p =>
    match acc.find? (fun pr => pr.1.id == p) with
    | some pr => pr.2
    | none => false

/-- Attachment flags: processing the comment list left to right, a comment
is attached (will appear in the tree) when its parent is null, or when its
declared parent occurs earlier in the list and is itself attached.  `acc`
holds the already-processed comments with their flags. -/
def attachedAcc : List (Comment × Bool) → List Comment → List (Comment × Bool)
  | acc, [] => acc
  | acc, c :: rest => attachedAcc (acc ++ [(c, attachFlag acc c)]) rest

/-- Attachment flags of a comment list, one pair per comment, in order. -/
def attachedPairs (comments : List Comment) : List (Comment × Bool) :=
  attachedAcc [] comments

/-- Parent links only point backwards: no comment declares itself as its own
parent, and no comment declares a comment occurring later in the list as
its parent.  This holds for lists ordered by creation time, since the
parent of a comment is created (and committed) before the comment. -/
def parentsEarlier (comments : List Comment) : Prop :=
  (∀ c ∈ comments, c.parent_id ≠ some c.id) ∧
    comments.Pairwise (fun a b => a.parent_id ≠ some b.id)

/-- A row of the `post` table (src/models.py, class `Post`).  `date` is a
day ordinal modelled as a natural number; the many-to-many tag links live
in a separate `post_tag` list of (post id, tag id) pairs. -/
structure Post where
  id : Nat
  title : String
  summary : String
  content : String
  category_id : Option Nat
  date : Nat
  author_id : Option Nat
  views : Nat
  likes : Nat
deriving DecidableEq, Repr

/-- A row of the `category` table (src/models.py). -/
structure Category where
  id : Nat
  name : String
deriving DecidableEq, Repr

/-- A row of the `tag` table (src/models.py). -/
structure Tag where
  id : Nat
  name : String
deriving DecidableEq, Repr

/-- A row of the `user` table (src/models.py). -/
structure User where
  id : Nat
  username : String
  password_hash : String
deriving DecidableEq, Repr

/-- A row of the `ticket` table (src/models.py revision with a
`TicketCategory` foreign key); timestamps are natural numbers. -/
structure Ticket where
  id : Nat
  title : String
  description : String
  status : String
  priority : String
  category_id : Option Nat
  user_id : Option Nat
  created_at : Nat
  updated_at : Nat
deriving DecidableEq, Repr

/-- A row of the `ticket_category` table (src/models.py revision). -/
structure TicketCategory where
  id : Nat
  name : String
  description : Option String
deriving DecidableEq, Repr

/-- A signed JWT, modelled as the signed payload together with the identity
of the signing key: two tokens agree exactly when both the payload and the
key agree, which is the abstraction of an unforgeable HS256 signature. -/
structure JwtToken where
  payload : List (String × Int)
  key : String
deriving DecidableEq, Repr

/-- The `data` member of the uniform response envelope, deep-embedded per
payload shape actually returned by the handlers the claims mention. -/
inductive RespData where
  | null
  | empty
  | userData (id : Nat) (username : String)
  | loginData (token : JwtToken) (id : Nat) (username : String)
  | commentData (c : Comment)
  | postsPage (page size total : Nat) (posts : List Post)
  | ticketsPage (page size total : Nat) (tickets : List Ticket)
deriving DecidableEq, Repr

/-- A response: the HTTP status code plus the uniform body envelope
`code`/`data`/`msg`.  JSONResponse defaults the HTTP status to 200 when the
handler does not pass `status_code`. -/
structure Env where
  status : Nat
  code : Nat
  data : RespData
  msg : String
deriving DecidableEq, Repr

/-- Python dict update `d[k] = v`: replace the value of an existing key in
place, else append the binding. -/
def dictSet (d : List (String × Int)) (k : String) (v : Int) :
    List (String × Int) :=
  if d.any (fun kv => kv.1 == k) then
    d.map (fun kv => if kv.1 == k then (k, v) else kv)
  else d ++ [(k, v)]

/-- Python dict lookup `d.get(k)`. -/
def dictGet (d : List (String × Int)) (k : String) : Option Int :=
  (d.find? (fun kv => kv.1 == k)).map Prod.snd

/-- `create_access_token` (src/auth_utils.py lines 32-52): copy the claims
dict and set its "exp" entry to now plus the ttl (the `expires_delta`
argument when given, else the configured default); `jwt.encode` is
modelled as the record of the signed payload and the signing key.
Timestamps are integers. -/
def create_access_token (data : List (String × Int)) (now ttl : Int)
    (key : String) : JwtToken :=
  { payload := dictSet data "exp" (now + ttl), key := key }

/-- `decode_access_token` (src/auth_utils.py lines 55-77): `jwt.decode`
verifies the signature and the "exp" claim (PyJWT treats the token as
expired exactly when exp ≤ now) and returns the payload; the handler
catches both `ExpiredSignatureError` and `InvalidTokenError` and returns
None for either, so the two failure causes collapse to the same result. -/
def decode_access_token (tok : JwtToken) (key : String) (now : Int) :
    Option (List (String × Int)) :=
  if tok.key = key then
    match dictGet tok.payload "exp" with
    | some e => if e ≤ now then none else some tok.payload
    | none => some tok.payload
  else none

/-- Modelled from the spec: `get_password_hash` lives in utils/auth.py,
which is absent from src/; section 4.1 of the spec describes it as a
one-way salted bcrypt-class hash.  For the claims only the induced
equivalence matters, so it is modelled as an injective encoding: verifying
a password against a stored digest succeeds exactly for the originally
hashed password. -/
def get_password_hash (password : String) : String :=
  password

/-- Modelled from the spec: `verify_password` from utils/auth.py (absent
from src/), spec section 4.1: `verify(password, digest) -> bool`. -/
def verify_password (password digest : String) : Bool :=
  get_password_hash password == digest

/-- The `user` table plus the autoincrement counter for fresh primary
keys. -/
structure AuthDB where
  users : List User
  nextUserId : Nat
deriving DecidableEq, Repr

/-- `register` (src/api/auth.py lines 14-72): reject passwords longer than
72 characters, reject an already-taken username with 409, otherwise hash
the password and insert the new user, answering 200 with the id and
username of the new row. -/
def register (username password : String) (st : AuthDB) : Env × AuthDB :=
  if password.length > 72 then
    (⟨400, 400, RespData.null, "密码长度不能超过72个字符"⟩, st)
  else
    match st.users.find? (fun u => u.username == username) with
    | some _ => (⟨409, 409, RespData.null, "用户名已存在"⟩, st)
    | none =>
      let u : User := ⟨st.nextUserId, username, get_password_hash password⟩
      (⟨200, 200, RespData.userData u.id u.username, "注册成功"⟩,
        ⟨st.users ++ [u], st.nextUserId + 1⟩)

/-- `login` (src/api/auth.py lines 74-139): reject over-length passwords,
then answer the same 401 envelope both for an unknown username and for a
failed password check; on success issue a token for claim sub = user id.
`now`, `ttl` and `key` are the clock and signing configuration that the
token helper reads from the environment. -/
def login (username password : String) (st : AuthDB) (now ttl : Int)
    (key : String) : Env :=
  if password.length > 72 then
    ⟨400, 400, RespData.null, "密码长度不能超过72个字符"⟩
  else
    match st.users.find? (fun u => u.username == username) with
    | none => ⟨401, 401, RespData.null, "用户名或密码错误"⟩
    | some user =>
      if verify_password password user.password_hash then
        ⟨200, 200,
          RespData.loginData
            (create_access_token [("sub", (user.id : Int))] now ttl key)
            user.id user.username,
          "登录成功"⟩
      else ⟨401, 401, RespData.null, "用户名或密码错误"⟩

/-- `delete_category` (src/api/categories.py lines 117-154): 404 when the
id is unknown, 400 leaving every row in place when any post references the
category, otherwise physically delete the row and answer 200 with an empty
data object. -/
def delete_category (id : Nat) (cats : List Category) (posts : List Post) :
    Env × List Category :=
  match cats.find? (fun c => c.id == id) with
  | none => (⟨404, 404, RespData.empty, "category not found"⟩, cats)
  | some _ =>
    if 0 < (posts.filter (fun p => p.category_id == some id)).length then
      (⟨400, 400, RespData.empty, "category has posts, cannot delete"⟩, cats)
    else
      (⟨200, 200, RespData.empty, "category deleted"⟩,
        cats.filter (fun c => c.id ≠ id))

/-- `delete_tag` (src/api/tags.py lines 122-160): as for categories, with
the references counted through the `post_tag` link table relationship
(`tag.posts`, a link row joined to an existing post). -/
def delete_tag (id : Nat) (tags : List Tag) (posts : List Post)
    (links : List (Nat × Nat)) : Env × List Tag :=
  match tags.find? (fun t => t.id == id) with
  | none => (⟨404, 404, RespData.empty, "tag not found"⟩, tags)
  | some _ =>
    if 0 < (links.filter (fun l =>
        l.2 == id && posts.any (fun p => p.id == l.1))).length then
      (⟨400, 400, RespData.empty, "tag has posts, cannot delete"⟩, tags)
    else
      (⟨200, 200, RespData.empty, "tag deleted"⟩,
        tags.filter (fun t => t.id ≠ id))

/-- `delete_ticket_category` (src/api/ticket_categories.py lines 153-190):
as for categories, with tickets as the referencing rows. -/
def delete_ticket_category (id : Nat) (tcats : List TicketCategory)
    (tickets : List Ticket) : Env × List TicketCategory :=
  match tcats.find? (fun c => c.id == id) with
  | none => (⟨404, 404, RespData.empty, "ticket category not found"⟩, tcats)
  | some _ =>
    if 0 < (tickets.filter (fun t => t.category_id == some id)).length then
      (⟨400, 400, RespData.empty,
        "ticket category has tickets, cannot delete"⟩, tcats)
    else
      (⟨200, 200, RespData.empty, "ticket category deleted"⟩,
        tcats.filter (fun c => c.id ≠ id))

/-- `delete_comment` (src/api/comments.py lines 147-199): 404 for an
unknown id, 403 when the caller is not the stored author, otherwise clear
`parent_id` on every direct child and delete the row. -/
def delete_comment (id : Nat) (current_user_id : Nat)
    (comments : List Comment) : Env × List Comment :=
  match comments.find? (fun c => c.id == id) with
  | none => (⟨404, 404, RespData.empty, "comment not found"⟩, comments)
  | some cm =>
    if cm.user_id ≠ some current_user_id then
      (⟨403, 403, RespData.empty, "not authorized"⟩, comments)
    else
      (⟨200, 200, RespData.empty, "comment deleted"⟩,
        (comments.map (fun c =>
          if c.parent_id == some id then { c with parent_id := none }
          else c)).filter (fun c => c.id ≠ id))

/-- `add_view` (src/api/interaction.py lines 9-17): primary-key lookup,
increment `views` by one and commit; the not-found branch puts 404 in the
body but, lacking a `status_code` argument, answers HTTP 200. -/
def add_view (id : Nat) (posts : List Post) : Env × List Post :=
  match posts.find? (fun p => p.id == id) with
  | none => (⟨200, 404, RespData.empty, "post not found"⟩, posts)
  | some _ =>
    (⟨200, 200, RespData.empty, "view +1"⟩,
      posts.map (fun p =>
        if p.id == id then { p with views := p.views + 1 } else p))

/-- `add_like` (src/api/interaction.py lines 19-27): as `add_view` for the
`likes` counter. -/
def add_like (id : Nat) (posts : List Post) : Env × List Post :=
  match posts.find? (fun p => p.id == id) with
  | none => (⟨200, 404, RespData.empty, "post not found"⟩, posts)
  | some _ =>
    (⟨200, 200, RespData.empty, "like +1"⟩,
      posts.map (fun p =>
        if p.id == id then { p with likes := p.likes + 1 } else p))

/-- The request body of POST /comments (src/schemas.py, `CommentCreate`). -/
structure CommentCreate where
  post_id : Nat
  parent_id : Option Nat
  author_name : String
  author_email : Option String
  content : String
deriving DecidableEq, Repr

/-- The tables touched by the comment endpoints plus the autoincrement
counter for comment primary keys (SQLite assigns ids starting at 1). -/
structure BlogDB where
  posts : List Post
  comments : List Comment
  nextCommentId : Nat
deriving DecidableEq, Repr

/-- `create_comment` (src/api/comments.py lines 75-144): 404 when the post
is unknown; the parent-existence check (same id and same post) runs only
under Python truthiness of `comment_data.parent_id`, so it is skipped both
for None and for 0; on insertion the stored row keeps the declared
`parent_id` as is. -/
def create_comment (cd : CommentCreate) (current_user : Option Nat)
    (st : BlogDB) (now : Nat) : Env × BlogDB :=
  match st.posts.find? (fun p => p.id == cd.post_id) with
  | none => (⟨404, 404, RespData.empty, "post not found"⟩, st)
  | some _ =>
    let newc : Comment :=
      ⟨st.nextCommentId, cd.post_id, cd.parent_id, cd.author_name,
        cd.author_email, cd.content, now, current_user⟩
    let inserted : Env × BlogDB :=
      (⟨201, 201, RespData.commentData newc, "comment created"⟩,
        ⟨st.posts, st.comments ++ [newc], st.nextCommentId + 1⟩)
    match cd.parent_id with
    | some p =>
      if p ≠ 0 then
        match st.comments.find? (fun cm =>
            cm.id == p && cm.post_id == cd.post_id) with
        | none => (⟨404, 404, RespData.empty, "parent comment not found"⟩, st)
        | some _ => inserted
      else inserted
    | none => inserted

/-- `get_post_comments` (src/api/comments.py lines 34-72): `none` is the
404 post-not-found branch; otherwise the comments of the post ordered by
`created_at` ascending are turned into the nested tree.  The tree builder
receives the list length as recursion fuel, enough for the acyclic parent
links the API can produce. -/
def get_post_comments (post_id : Nat) (st : BlogDB) :
    Option (List CommentNode) :=
  match st.posts.find? (fun p => p.id == post_id) with
  | none => none
  | some _ =>
    let cs := st.comments.filter (fun c => c.post_id == post_id)
    let sorted := List.insertionSort
      (fun a b => a.created_at ≤ b.created_at) cs
    some (build_comment_tree sorted.length sorted none)

/-- SQL LIKE pattern matching of `.contains(s)`: substring containment on
the character sequences. -/
def strContains (hay needle : String) : Bool :=
  decide (needle.toList <:+: hay.toList)

/-- The row predicate of the fully joined `list_posts` query
(src/api/posts.py lines 29-49): optional substring search over title,
summary and content; inner join on category name; inner join through the
`post_tag` link table on tag name; date equality. -/
def postMatches (search category tag : Option String) (dateF : Option Nat)
    (cats : List Category) (tags : List Tag) (links : List (Nat × Nat))
    (p : Post) : Bool :=
  (match search with
   | some s => strContains p.title s
       || strContains p.summary s
       || strContains p.content s
   | none => true) &&
  (match category with
   | some cn => cats.any (fun c => p.category_id == some c.id && c.name == cn)
   | none => true) &&
  (match tag with
   | some tn => links.any (fun l => l.1 == p.id
       && tags.any (fun t => t.id == l.2 && t.name == tn))
   | none => true) &&
  (match dateF with
   | some d => p.date == d
   | none => true)

/-- The count query of `list_posts` (src/api/posts.py lines 51-53):
`select(Post).where(stmt.whereclause)` re-evaluates the accumulated
conditions without the join clauses of the items query, so a condition
naming the category or tag table makes that table a cross-joined FROM
entry.  The row count is therefore the number of posts matching only the
post-column conditions (search, date) times the number of category rows
with the filtered name times the number of tag rows with the filtered
name. -/
def list_posts_total (search category tag : Option String)
    (dateF : Option Nat) (posts : List Post) (cats : List Category)
    (tags : List Tag) : Nat :=
  (posts.filter (fun p =>
    (match search with
     | some s => strContains p.title s
         || strContains p.summary s
         || strContains p.content s
     | none => true) &&
    (match dateF with
     | some d => p.date == d
     | none => true))).length
  * (match category with
     | some cn => (cats.filter (fun c => c.name == cn)).length
     | none => 1)
  * (match tag with
     | some tn => (tags.filter (fun t => t.name == tn)).length
     | none => 1)

/-- `list_posts` (src/api/posts.py lines 16-90): filter, count through the
separate count query, order by date descending, and slice the window
offset (page-1)*size, limit size.  The serialized rows are returned as the
underlying post rows. -/
def list_posts (page size : Nat) (search category tag : Option String)
    (dateF : Option Nat) (posts : List Post) (cats : List Category)
    (tags : List Tag) (links : List (Nat × Nat)) : Env :=
  let filtered := posts.filter (postMatches search category tag dateF
    cats tags links)
  let ordered := List.insertionSort (fun a b => b.date ≤ a.date) filtered
  let total := list_posts_total search category tag dateF posts cats tags
  let items := (ordered.drop ((page - 1) * size)).take size
  ⟨200, 200, RespData.postsPage page size total items, "success"⟩

/-- The row predicate of the `list_tickets` query (src/api/tickets.py
lines 34-51): optional substring search over title and description, exact
status, exact priority, exact category id. -/
def ticketMatches (search status priority : Option String)
    (category_id : Option Nat) (t : Ticket) : Bool :=
  (match search with
   | some s => strContains t.title s
       || strContains t.description s
   | none => true) &&
  (match status with
   | some s => t.status == s
   | none => true) &&
  (match priority with
   | some pz => t.priority == pz
   | none => true) &&
  (match category_id with
   | some cid => t.category_id == some cid
   | none => true)

/-- The count query of `list_tickets` (src/api/tickets.py lines 53-58):
`select(func.count()).select_from(Ticket)` with the same filter list as
the items query; every condition names only ticket columns, so the count
is the number of matching ticket rows. -/
def list_tickets_total (search status priority : Option String)
    (category_id : Option Nat) (tickets : List Ticket) : Nat :=
  (tickets.filter (ticketMatches search status priority category_id)).length

/-- `list_tickets` (src/api/tickets.py lines 16-97): filter, count through
the count query, order by created_at descending, and slice the window
offset (page-1)*size, limit size. -/
def list_tickets (page size : Nat) (search status priority : Option String)
    (category_id : Option Nat) (tickets : List Ticket) : Env :=
  let filtered := tickets.filter
    (ticketMatches search status priority category_id)
  let ordered := List.insertionSort
    (fun a b => b.created_at ≤ a.created_at) filtered
  let total := list_tickets_total search status priority category_id tickets
  let items := (ordered.drop ((page - 1) * size)).take size
  ⟨200, 200, RespData.ticketsPage page size total items, "success"⟩

theorem countList_append (y : Nat) (A B : List CommentNode) :
    countList y (A ++ B) = countList y A + countList y B := by
  induction A with
  | nil => simp [countList]
  | cons n ns ih =>
    cases n with
    | mk i pid par an ae co ca rs =>
      simp only [List.cons_append, countList, ih]
      omega

theorem childList_append (p y : Nat) (A B : List CommentNode) :
    childList p y (A ++ B) = childList p y A + childList p y B := by
  induction A with
  | nil => simp [childList]
  | cons n ns ih =>
    cases n with
    | mk i pid par an ae co ca rs =>
      simp only [List.cons_append, childList, ih]
      omega

theorem countList_map_nodes (y : Nat) (g : Comment → List CommentNode)
    (l : List Comment) :
    countList y (l.map (fun c => CommentNode.mk c.id c.post_id c.parent_id
        c.author_name c.author_email c.content c.created_at (g c)))
      = (l.map (fun c =>
          (if c.id = y then 1 else 0) + countList y (g c))).sum := by
  induction l with
  | nil => simp [countList]
  | cons c cs ih =>
    simp only [List.map_cons, countList, List.sum_cons, ih]

theorem childList_map_nodes (p y : Nat) (g : Comment → List CommentNode)
    (l : List Comment) :
    childList p y (l.map (fun c => CommentNode.mk c.id c.post_id c.parent_id
        c.author_name c.author_email c.content c.created_at (g c)))
      = (l.map (fun c =>
          (if c.id = p then List.count y ((g c).map CommentNode.id) else 0)
            + childList p y (g c))).sum := by
  induction l with
  | nil => simp [childList]
  | cons c cs ih =>
    simp only [List.map_cons, childList, List.sum_cons, ih]

theorem countList_build (y f : Nat) (L : List Comment) (q : Option Nat) :
    countList y (build_comment_tree (f + 1) L q)
      = ((L.filter (fun c => c.parent_id == q)).map (fun c =>
          (if c.id = y then 1 else 0)
            + countList y (build_comment_tree f L (some c.id)))).sum := by
  rw [build_comment_tree]
  exact countList_map_nodes y _ _

theorem childList_build (p y f : Nat) (L : List Comment) (q : Option Nat) :
    childList p y (build_comment_tree (f + 1) L q)
      = ((L.filter (fun c => c.parent_id == q)).map (fun c =>
          (if c.id = p then
            List.count y ((build_comment_tree f L (some c.id)).map
              CommentNode.id) else 0)
            + childList p y (build_comment_tree f L (some c.id)))).sum := by
  rw [build_comment_tree]
  exact childList_map_nodes p y _ _

theorem ids_build (f : Nat) (L : List Comment) (q : Option Nat) :
    (build_comment_tree (f + 1) L q).map CommentNode.id
      = (L.filter (fun c => c.parent_id == q)).map Comment.id := by
  rw [build_comment_tree, List.map_map]
  rfl

theorem build_eq_nil (fuel : Nat) (L : List Comment) (q : Option Nat)
    (h : ∀ c ∈ L, ¬(c.parent_id == q) = true) :
    build_comment_tree fuel L q = [] := by
  cases fuel with
  | zero => rfl
  | succ f =>
    rw [build_comment_tree, List.filter_eq_nil_iff.mpr h]
    rfl

theorem countList_eq_zero_of_not_mem (y : Nat) (L : List Comment)
    (h : y ∉ L.map Comment.id) :
    ∀ fuel q, countList y (build_comment_tree fuel L q) = 0 := by
  intro fuel
  induction fuel with
  | zero => intro q; simp [build_comment_tree, countList]
  | succ f ih =>
    intro q
    rw [countList_build]
    apply List.sum_eq_zero
    intro x hx
    rcases List.mem_map.mp hx with ⟨c, hc, rfl⟩
    have hcL : c ∈ L := List.mem_of_mem_filter hc
    have : c.id ≠ y := by
      intro hEq
      exact h (List.mem_map.mpr ⟨c, hcL, hEq⟩)
    rw [if_neg this, ih]
    omega

theorem map_congr_mem {α β : Type} (l : List α) (f g : α → β)
    (h : ∀ a ∈ l, f a = g a) : l.map f = l.map g := by
  induction l with
  | nil => rfl
  | cons a as ih =>
    simp only [List.map_cons]
    rw [h a (List.mem_cons_self a as), ih]
    intro a ha
    exact h a (List.mem_cons_of_mem _ ha)

theorem build_snoc_nil (L : List Comment) (c : Comment)
    (hfresh : ∀ d ∈ L ++ [c], d.parent_id ≠ some c.id) :
    ∀ fuel, build_comment_tree fuel (L ++ [c]) (some c.id) = [] := by
  intro fuel
  apply build_eq_nil
  intro d hd
  simp only [beq_iff_eq]
  exact hfresh d hd

theorem countList_build_snoc (L : List Comment) (c : Comment)
    (hfresh : ∀ d ∈ L ++ [c], d.parent_id ≠ some c.id)
    (y : Nat) (hy : y ≠ c.id) :
    ∀ fuel q, countList y (build_comment_tree fuel (L ++ [c]) q)
      = countList y (build_comment_tree fuel L q) := by
  intro fuel
  induction fuel with
  | zero => intro q; rfl
  | succ f ih =>
    intro q
    rw [countList_build, countList_build, List.filter_append,
      List.map_append, List.sum_append]
    have hL : (L.filter (fun d => d.parent_id == q)).map (fun d =>
        (if d.id = y then 1 else 0)
          + countList y (build_comment_tree f (L ++ [c]) (some d.id)))
        = (L.filter (fun d => d.parent_id == q)).map (fun d =>
          (if d.id = y then 1 else 0)
            + countList y (build_comment_tree f L (some d.id))) := by
      apply map_congr_mem
      intro d _
      rw [ih]
    rw [hL]
    by_cases hcq : (c.parent_id == q) = true
    · have hfc : List.filter (fun d => d.parent_id == q) [c] = [c] := by
        simp [List.filter_singleton, hcq]
      rw [hfc]
      simp only [List.map_cons, List.map_nil, List.sum_cons, List.sum_nil]
      rw [build_snoc_nil L c hfresh f]
      simp [countList, Ne.symm hy]
    · have hfc : List.filter (fun d => d.parent_id == q) [c] = [] := by
        simp [List.filter_singleton, hcq]
      rw [hfc]
      simp

theorem count_top_build_snoc (L : List Comment) (c : Comment)
    (y : Nat) (hy : y ≠ c.id) :
    ∀ fuel q, List.count y ((build_comment_tree fuel (L ++ [c]) q).map
        CommentNode.id)
      = List.count y ((build_comment_tree fuel L q).map CommentNode.id) := by
  intro fuel q
  cases fuel with
  | zero => rfl
  | succ f =>
    rw [ids_build, ids_build, List.filter_append, List.map_append,
      List.count_append]
    by_cases hcq : (c.parent_id == q) = true
    · simp [List.filter_singleton, hcq, List.count_singleton, Ne.symm hy]
    · simp [List.filter_singleton, hcq]

theorem childList_build_snoc (L : List Comment) (c : Comment)
    (hfresh : ∀ d ∈ L ++ [c], d.parent_id ≠ some c.id)
    (p y : Nat) (hy : y ≠ c.id) :
    ∀ fuel q, childList p y (build_comment_tree fuel (L ++ [c]) q)
      = childList p y (build_comment_tree fuel L q) := by
  intro fuel
  induction fuel with
  | zero => intro q; rfl
  | succ f ih =>
    intro q
    rw [childList_build, childList_build, List.filter_append,
      List.map_append, List.sum_append]
    have hL : (L.filter (fun d => d.parent_id == q)).map (fun d =>
        (if d.id = p then
          List.count y ((build_comment_tree f (L ++ [c]) (some d.id)).map
            CommentNode.id) else 0)
          + childList p y (build_comment_tree f (L ++ [c]) (some d.id)))
        = (L.filter (fun d => d.parent_id == q)).map (fun d =>
          (if d.id = p then
            List.count y ((build_comment_tree f L (some d.id)).map
              CommentNode.id) else 0)
            + childList p y (build_comment_tree f L (some d.id))) := by
      apply map_congr_mem
      intro d _
      rw [ih, count_top_build_snoc L c y hy]
    rw [hL]
    by_cases hcq : (c.parent_id == q) = true
    · have hfc : List.filter (fun d => d.parent_id == q) [c] = [c] := by
        simp [List.filter_singleton, hcq]
      rw [hfc]
      simp only [List.map_cons, List.map_nil, List.sum_cons, List.sum_nil]
      rw [build_snoc_nil L c hfresh f]
      simp [childList]
    · have hfc : List.filter (fun d => d.parent_id == q) [c] = [] := by
        simp [List.filter_singleton, hcq]
      rw [hfc]
      simp

theorem count_top_build_snoc_self (L : List Comment) (c : Comment)
    (hid : c.id ∉ L.map Comment.id) :
    ∀ f q, List.count c.id ((build_comment_tree (f + 1) (L ++ [c]) q).map
        CommentNode.id)
      = (if c.parent_id == q then 1 else 0) := by
  intro f q
  rw [ids_build, List.filter_append, List.map_append, List.count_append]
  have hzero : List.count c.id ((L.filter (fun d => d.parent_id == q)).map
      Comment.id) = 0 := by
    apply List.count_eq_zero.mpr
    intro hmem
    rcases List.mem_map.mp hmem with ⟨d, hd, hdid⟩
    exact hid (List.mem_map.mpr ⟨d, List.mem_of_mem_filter hd, hdid⟩)
  rw [hzero]
  by_cases hcq : (c.parent_id == q) = true
  · simp [List.filter_singleton, hcq]
  · simp [List.filter_singleton, hcq]

theorem countList_build_snoc_self_none (L : List Comment) (c : Comment)
    (hfresh : ∀ d ∈ L ++ [c], d.parent_id ≠ some c.id)
    (hid : c.id ∉ L.map Comment.id)
    (hpar : c.parent_id = none) :
    ∀ f q, countList c.id (build_comment_tree (f + 1) (L ++ [c]) q)
      = (if c.parent_id == q then 1 else 0) := by
  intro f
  induction f with
  | zero =>
    intro q
    rw [countList_build, List.filter_append, List.map_append,
      List.sum_append]
    have hLz : ((L.filter (fun d => d.parent_id == q)).map (fun d =>
        (if d.id = c.id then 1 else 0)
          + countList c.id (build_comment_tree 0 (L ++ [c]) (some d.id)))).sum
        = 0 := by
      apply List.sum_eq_zero
      intro x hx
      rcases List.mem_map.mp hx with ⟨d, hd, rfl⟩
      have : d.id ≠ c.id := by
        intro hEq
        exact hid (List.mem_map.mpr ⟨d, List.mem_of_mem_filter hd, hEq⟩)
      simp [this, build_comment_tree, countList]
    rw [hLz]
    by_cases hcq : (c.parent_id == q) = true
    · have hfc : List.filter (fun d => d.parent_id == q) [c] = [c] := by
        simp [List.filter_singleton, hcq]
      rw [hfc]
      simp [hcq, build_comment_tree, countList]
    · have hfc : List.filter (fun d => d.parent_id == q) [c] = [] := by
        simp [List.filter_singleton, hcq]
      rw [hfc]
      simp [hcq]
  | succ f ih =>
    intro q
    rw [countList_build, List.filter_append, List.map_append,
      List.sum_append]
    have hLz : ((L.filter (fun d => d.parent_id == q)).map (fun d =>
        (if d.id = c.id then 1 else 0)
          + countList c.id
              (build_comment_tree (f + 1) (L ++ [c]) (some d.id)))).sum
        = 0 := by
      apply List.sum_eq_zero
      intro x hx
      rcases List.mem_map.mp hx with ⟨d, hd, rfl⟩
      have hne : d.id ≠ c.id := by
        intro hEq
        exact hid (List.mem_map.mpr ⟨d, List.mem_of_mem_filter hd, hEq⟩)
      rw [ih (some d.id)]
      simp [hne, hpar]
    rw [hLz]
    by_cases hcq : (c.parent_id == q) = true
    · have hfc : List.filter (fun d => d.parent_id == q) [c] = [c] := by
        simp [List.filter_singleton, hcq]
      rw [hfc]
      simp only [List.map_cons, List.map_nil, List.sum_cons, List.sum_nil]
      rw [build_snoc_nil L c hfresh]
      simp [hcq, countList]
    · have hfc : List.filter (fun d => d.parent_id == q) [c] = [] := by
        simp [List.filter_singleton, hcq]
      rw [hfc]
      simp [hcq]

theorem countList_build_snoc_self_some (L : List Comment) (c : Comment)
    (p : Nat)
    (hfresh : ∀ d ∈ L ++ [c], d.parent_id ≠ some c.id)
    (hid : c.id ∉ L.map Comment.id)
    (hpar : c.parent_id = some p) :
    ∀ f q, countList c.id (build_comment_tree (f + 1) (L ++ [c]) q)
      = (if c.parent_id == q then 1 else 0)
        + countList p (build_comment_tree f L q) := by
  intro f
  induction f with
  | zero =>
    intro q
    rw [countList_build, List.filter_append, List.map_append,
      List.sum_append]
    have hLz : ((L.filter (fun d => d.parent_id == q)).map (fun d =>
        (if d.id = c.id then 1 else 0)
          + countList c.id (build_comment_tree 0 (L ++ [c]) (some d.id)))).sum
        = 0 := by
      apply List.sum_eq_zero
      intro x hx
      rcases List.mem_map.mp hx with ⟨d, hd, rfl⟩
      have : d.id ≠ c.id := by
        intro hEq
        exact hid (List.mem_map.mpr ⟨d, List.mem_of_mem_filter hd, hEq⟩)
      simp [this, build_comment_tree, countList]
    rw [hLz]
    by_cases hcq : (c.parent_id == q) = true
    · have hfc : List.filter (fun d => d.parent_id == q) [c] = [c] := by
        simp [List.filter_singleton, hcq]
      rw [hfc]
      simp [hcq, build_comment_tree, countList]
    · have hfc : List.filter (fun d => d.parent_id == q) [c] = [] := by
        simp [List.filter_singleton, hcq]
      rw [hfc]
      simp [hcq, build_comment_tree, countList]
  | succ f ih =>
    intro q
    rw [countList_build, List.filter_append, List.map_append,
      List.sum_append]
    have hL : (L.filter (fun d => d.parent_id == q)).map (fun d =>
        (if d.id = c.id then 1 else 0)
          + countList c.id
              (build_comment_tree (f + 1) (L ++ [c]) (some d.id)))
        = (L.filter (fun d => d.parent_id == q)).map (fun d =>
          (if d.id = p then 1 else 0)
            + countList p (build_comment_tree f L (some d.id))) := by
      apply map_congr_mem
      intro d hd
      have hne : d.id ≠ c.id := by
        intro hEq
        exact hid
          (List.mem_map.mpr ⟨d, List.mem_of_mem_filter hd, hEq⟩)
      rw [ih (some d.id)]
      by_cases hdp : d.id = p
      · subst hdp
        simp [hne, hpar]
      · have : ¬((c.parent_id == some d.id) = true) := by
          simp [hpar]
          intro hEq
          exact hdp hEq.symm
        simp [hne, this, hdp]
    rw [hL, ← countList_build]
    by_cases hcq : (c.parent_id == q) = true
    · have hfc : List.filter (fun d => d.parent_id == q) [c] = [c] := by
        simp [List.filter_singleton, hcq]
      rw [hfc]
      simp only [List.map_cons, List.map_nil, List.sum_cons, List.sum_nil]
      rw [build_snoc_nil L c hfresh]
      simp [hcq, countList]
      omega
    · have hfc : List.filter (fun d => d.parent_id == q) [c] = [] := by
        simp [List.filter_singleton, hcq]
      rw [hfc]
      simp [hcq]

theorem childList_build_snoc_self (L : List Comment) (c : Comment)
    (p : Nat)
    (hfresh : ∀ d ∈ L ++ [c], d.parent_id ≠ some c.id)
    (hid : c.id ∉ L.map Comment.id)
    (hpar : c.parent_id = some p) :
    ∀ f q, childList p c.id (build_comment_tree (f + 1) (L ++ [c]) q)
      = countList p (build_comment_tree f L q) := by
  intro f
  induction f with
  | zero =>
    intro q
    rw [childList_build]
    have hz : ∀ x ∈ ((L ++ [c]).filter (fun d => d.parent_id == q)).map
        (fun d => (if d.id = p then
            List.count c.id ((build_comment_tree 0 (L ++ [c])
              (some d.id)).map CommentNode.id) else 0)
          + childList p c.id (build_comment_tree 0 (L ++ [c]) (some d.id))),
        x = 0 := by
      intro x hx
      rcases List.mem_map.mp hx with ⟨d, _, rfl⟩
      simp [build_comment_tree, childList]
    rw [List.sum_eq_zero hz]
    simp [build_comment_tree, countList]
  | succ f ih =>
    intro q
    rw [childList_build, List.filter_append, List.map_append,
      List.sum_append]
    have hL : (L.filter (fun d => d.parent_id == q)).map (fun d =>
        (if d.id = p then
          List.count c.id ((build_comment_tree (f + 1) (L ++ [c])
            (some d.id)).map CommentNode.id) else 0)
          + childList p c.id
              (build_comment_tree (f + 1) (L ++ [c]) (some d.id)))
        = (L.filter (fun d => d.parent_id == q)).map (fun d =>
          (if d.id = p then 1 else 0)
            + countList p (build_comment_tree f L (some d.id))) := by
      apply map_congr_mem
      intro d _
      rw [ih (some d.id), count_top_build_snoc_self L c hid f (some d.id)]
      by_cases hdp : d.id = p
      · simp [hpar, hdp]
      · simp [hdp]
    rw [hL, ← countList_build]
    by_cases hcq : (c.parent_id == q) = true
    · have hfc : List.filter (fun d => d.parent_id == q) [c] = [c] := by
        simp [List.filter_singleton, hcq]
      rw [hfc]
      simp only [List.map_cons, List.map_nil, List.sum_cons, List.sum_nil]
      rw [build_snoc_nil L c hfresh]
      simp [childList]
    · have hfc : List.filter (fun d => d.parent_id == q) [c] = [] := by
        simp [List.filter_singleton, hcq]
      rw [hfc]
      simp

theorem attachedAcc_append (L1 L2 : List Comment) :
    ∀ acc, attachedAcc acc (L1 ++ L2) = attachedAcc (attachedAcc acc L1) L2 := by
  induction L1 with
  | nil => intro acc; rfl
  | cons c rest ih =>
    intro acc
    simp only [List.cons_append, attachedAcc]
    exact ih _

theorem attachedAcc_fst (L : List Comment) :
    ∀ acc, (attachedAcc acc L).map Prod.fst = acc.map Prod.fst ++ L := by
  induction L with
  | nil => intro acc; simp [attachedAcc]
  | cons c rest ih =>
    intro acc
    simp only [attachedAcc, ih]
    simp

theorem attachedPairs_fst (L : List Comment) :
    (attachedPairs L).map Prod.fst = L := by
  have := attachedAcc_fst L []
  simpa [attachedPairs] using this

theorem attachedPairs_snoc (L : List Comment) (c : Comment) :
    attachedPairs (L ++ [c])
      = attachedPairs L ++ [(c, attachFlag (attachedPairs L) c)] := by
  unfold attachedPairs
  rw [attachedAcc_append]
  rfl

/-- Main characterization of `build_comment_tree` on well-formed input
(distinct ids, parent links pointing strictly backwards): a comment whose
attachment flag is true appears exactly once in the forest, as a direct
child of the node carrying its parent id when it has one; a comment whose
flag is false appears nowhere; a null parent forces a true flag, and a
parent id absent from the list forces a false flag. -/
theorem attached_tree_spec :
    ∀ (L : List Comment), (L.map Comment.id).Nodup → parentsEarlier L →
      ∀ fuel, L.length ≤ fuel → ∀ pr ∈ attachedPairs L,
        (pr.1.parent_id = none → pr.2 = true) ∧
        (pr.2 = true →
          countList pr.1.id (build_comment_tree fuel L none) = 1) ∧
        (∀ p, pr.2 = true → pr.1.parent_id = some p →
          childList p pr.1.id (build_comment_tree fuel L none) = 1) ∧
        (pr.2 = false →
          countList pr.1.id (build_comment_tree fuel L none) = 0) ∧
        (∀ p, pr.1.parent_id = some p → p ∉ L.map Comment.id →
          pr.2 = false) := by
  intro L
  induction L using List.reverseRecOn with
  | nil =>
    intro _ _ fuel _ pr hpr
    simp [attachedPairs, attachedAcc] at hpr
  | append_singleton L c ih =>
    intro hnodup hpe fuel hfuel pr hpr
    have hmap : (L ++ [c]).map Comment.id = L.map Comment.id ++ [c.id] := by
      simp
    rw [hmap] at hnodup
    obtain ⟨hnodupL, _, hdisj⟩ := List.nodup_append.mp hnodup
    have hid : c.id ∉ L.map Comment.id := by
      intro hmem
      exact hdisj hmem (by simp)
    obtain ⟨hself, hpw⟩ := hpe
    rw [List.pairwise_append] at hpw
    obtain ⟨hpwL, _, hcross⟩ := hpw
    have hfresh : ∀ d ∈ L ++ [c], d.parent_id ≠ some c.id := by
      intro d hd
      rcases List.mem_append.mp hd with hdL | hdc
      · exact hcross d hdL c (by simp)
      · rw [List.mem_singleton.mp hdc]
        exact hself c (by simp)
    have hpeL : parentsEarlier L :=
      ⟨fun d hd => hself d (List.mem_append_left _ hd), hpwL⟩
    have hlen : L.length + 1 ≤ fuel := by
      simpa using hfuel
    obtain ⟨f, rfl⟩ : ∃ f, fuel = f + 1 := ⟨fuel - 1, by omega⟩
    have hfL1 : L.length ≤ f + 1 := by omega
    have hfL : L.length ≤ f := by omega
    rw [attachedPairs_snoc] at hpr
    rcases List.mem_append.mp hpr with hold | hnew
    · -- a comment of the prefix: the appended comment changes nothing
      obtain ⟨ihA, ihB, ihC, ihD, ihE⟩ :=
        ih hnodupL hpeL (f + 1) hfL1 pr hold
      have hpr1L : pr.1 ∈ L := by
        have hm : pr.1 ∈ (attachedPairs L).map Prod.fst :=
          List.mem_map_of_mem Prod.fst hold
        rwa [attachedPairs_fst] at hm
      have hprid : pr.1.id ≠ c.id := by
        intro hEq
        exact hid (hEq ▸ List.mem_map_of_mem Comment.id hpr1L)
      refine ⟨ihA, ?_, ?_, ?_, ?_⟩
      · intro hb
        rw [countList_build_snoc L c hfresh pr.1.id hprid]
        exact ihB hb
      · intro p hb hp
        rw [childList_build_snoc L c hfresh p pr.1.id hprid]
        exact ihC p hb hp
      · intro hb
        rw [countList_build_snoc L c hfresh pr.1.id hprid]
        exact ihD hb
      · intro p hp hpm
        apply ihE p hp
        intro hmem
        apply hpm
        rw [hmap]
        exact List.mem_append_left _ hmem
    · -- the appended comment itself
      have hpr' : pr = (c, attachFlag (attachedPairs L) c) :=
        List.mem_singleton.mp hnew
      subst hpr'
      simp only
      cases hpar : c.parent_id with
      | none =>
        have hflag : attachFlag (attachedPairs L) c = true := by
          simp [attachFlag, hpar]
        refine ⟨fun _ => hflag, ?_, ?_, ?_, ?_⟩
        · intro _
          rw [countList_build_snoc_self_none L c hfresh hid hpar]
          simp [hpar]
        · intro p _ hp
          exact absurd hp (by simp)
        · intro hb
          rw [hflag] at hb
          exact absurd hb (by simp)
        · intro p hp
          exact absurd hp (by simp)
      | some p =>
        have hflag : attachFlag (attachedPairs L) c
            = (match (attachedPairs L).find? (fun pr => pr.1.id == p) with
               | some pr => pr.2
               | none => false) := by
          simp [attachFlag, hpar]
        refine ⟨?_, ?_, ?_, ?_, ?_⟩
        · intro hcontra
          exact absurd hcontra (by simp)
        · intro hb
          rw [hflag] at hb
          cases hfind : (attachedPairs L).find? (fun pr => pr.1.id == p) with
          | none => rw [hfind] at hb; simp at hb
          | some pr' =>
            rw [hfind] at hb
            have hmem' : pr' ∈ attachedPairs L :=
              List.mem_of_find?_eq_some hfind
            have hpid : pr'.1.id = p := by
              have := List.find?_some hfind
              exact beq_iff_eq.mp this
            obtain ⟨_, ihB, _, _, _⟩ :=
              ih hnodupL hpeL f hfL pr' hmem'
            rw [countList_build_snoc_self_some L c p hfresh hid hpar]
            rw [hpar]
            rw [← hpid]
            rw [ihB hb]
            simp
        · intro p' hb hp'
          injection hp' with h
          subst h
          rw [hflag] at hb
          cases hfind : (attachedPairs L).find? (fun pr => pr.1.id == p) with
          | none => rw [hfind] at hb; simp at hb
          | some pr' =>
            rw [hfind] at hb
            have hmem' : pr' ∈ attachedPairs L :=
              List.mem_of_find?_eq_some hfind
            have hpid : pr'.1.id = p := by
              have := List.find?_some hfind
              exact beq_iff_eq.mp this
            obtain ⟨_, ihB, _, _, _⟩ :=
              ih hnodupL hpeL f hfL pr' hmem'
            rw [childList_build_snoc_self L c p hfresh hid hpar]
            rw [← hpid, ihB hb]
        · intro hb
          rw [hflag] at hb
          rw [countList_build_snoc_self_some L c p hfresh hid hpar]
          rw [hpar]
          simp only [show ((some p == (none : Option Nat)) = false) by rfl]
          cases hfind : (attachedPairs L).find? (fun pr => pr.1.id == p) with
          | none =>
            have hnotin : p ∉ L.map Comment.id := by
              intro hmem
              rcases List.mem_map.mp hmem with ⟨d, hdL, hdid⟩
              have : ∃ b, (d, b) ∈ attachedPairs L := by
                have hdm : d ∈ (attachedPairs L).map Prod.fst := by
                  rw [attachedPairs_fst]; exact hdL
                rcases List.mem_map.mp hdm with ⟨pr'', hpr'', hfst⟩
                refine ⟨pr''.2, ?_⟩
                rw [← hfst, Prod.mk.eta]
                exact hpr''
              obtain ⟨b, hdb⟩ := this
              have := List.find?_eq_none.mp hfind (d, b) hdb
              simp at this
              exact this (by rw [hdid])
            rw [countList_eq_zero_of_not_mem p L hnotin f none]
            simp
          | some pr' =>
            rw [hfind] at hb
            have hmem' : pr' ∈ attachedPairs L :=
              List.mem_of_find?_eq_some hfind
            have hpid : pr'.1.id = p := by
              have := List.find?_some hfind
              exact beq_iff_eq.mp this
            obtain ⟨_, _, _, ihD, _⟩ :=
              ih hnodupL hpeL f hfL pr' hmem'
            rw [← hpid, ihD hb]
            simp
        · intro p' hp' hpm
          injection hp' with h
          subst h
          have hnotinL : p ∉ L.map Comment.id := by
            intro hmem
            apply hpm
            rw [hmap]
            exact List.mem_append_left _ hmem
          have hfind : (attachedPairs L).find? (fun pr => pr.1.id == p)
              = none := by
            apply List.find?_eq_none.mpr
            intro pr'' hpr''
            simp only [beq_iff_eq]
            intro hEq
            apply hnotinL
            have hm : pr''.1 ∈ (attachedPairs L).map Prod.fst :=
              List.mem_map_of_mem Prod.fst hpr''
            rw [attachedPairs_fst] at hm
            exact hEq ▸ List.mem_map_of_mem Comment.id hm
          rw [hflag, hfind]

theorem dictGet_map_set (k : String) (v : Int) :
    ∀ d : List (String × Int), d.any (fun kv => kv.1 == k) = true →
      dictGet (d.map (fun kv => if kv.1 == k then (k, v) else kv)) k
        = some v := by
  intro d
  induction d with
  | nil => intro h; simp at h
  | cons a d' ih =>
    intro h
    by_cases ha : (a.1 == k) = true
    · simp [dictGet, List.find?, ha]
    · have h' : d'.any (fun kv => kv.1 == k) = true := by
        simp [List.any_cons, ha] at h
        simpa using h
      have := ih h'
      simp only [List.map_cons, if_neg ha]
      simpa [dictGet, List.find?, ha] using this

theorem dictGet_append_set (k : String) (v : Int) :
    ∀ d : List (String × Int), d.any (fun kv => kv.1 == k) = false →
      dictGet (d ++ [(k, v)]) k = some v := by
  intro d
  induction d with
  | nil => simp [dictGet, List.find?]
  | cons a d' ih =>
    intro h
    simp only [List.any_cons, Bool.or_eq_false_iff] at h
    obtain ⟨ha, hd'⟩ := h
    have := ih hd'
    simpa [dictGet, List.find?, ha] using this

theorem dictGet_dictSet_same (d : List (String × Int)) (k : String)
    (v : Int) : dictGet (dictSet d k v) k = some v := by
  unfold dictSet
  by_cases h : d.any (fun kv => kv.1 == k) = true
  · rw [if_pos h]
    exact dictGet_map_set k v d h
  · rw [if_neg h]
    apply dictGet_append_set k v d
    simp only [Bool.not_eq_true] at h
    exact h

theorem dictGet_map_other (k : String) (v : Int) (k' : String)
    (hk : k' ≠ k) :
    ∀ d : List (String × Int),
      dictGet (d.map (fun kv => if kv.1 == k then (k, v) else kv)) k'
        = dictGet d k' := by
  intro d
  induction d with
  | nil => rfl
  | cons a d' ih =>
    by_cases ha : (a.1 == k) = true
    · have ha' : a.1 = k := beq_iff_eq.mp ha
      have h1 : ((k : String) == k') = false := by
        simp [beq_iff_eq]
        intro hEq
        exact hk hEq.symm
      have h2 : (a.1 == k') = false := by
        rw [ha']
        exact h1
      simp [dictGet, List.find?, ha, h1, h2] at ih ⊢
      exact ih
    · simp only [List.map_cons, if_neg ha]
      by_cases ha' : (a.1 == k') = true
      · simp [dictGet, List.find?, ha']
      · simp [dictGet, List.find?, ha'] at ih ⊢
        exact ih

theorem dictGet_append_other (k : String) (v : Int) (k' : String)
    (hk : k' ≠ k) :
    ∀ d : List (String × Int), dictGet (d ++ [(k, v)]) k' = dictGet d k' := by
  intro d
  induction d with
  | nil =>
    have h1 : ((k : String) == k') = false := by
      simp [beq_iff_eq]
      intro hEq
      exact hk hEq.symm
    simp [dictGet, List.find?, h1]
  | cons a d' ih =>
    by_cases ha : (a.1 == k') = true
    · simp [dictGet, List.find?, ha]
    · simp [dictGet, List.find?, ha] at ih ⊢
      exact ih

theorem dictGet_dictSet_other (d : List (String × Int)) (k : String)
    (v : Int) (k' : String) (hk : k' ≠ k) :
    dictGet (dictSet d k v) k' = dictGet d k' := by
  unfold dictSet
  by_cases h : d.any (fun kv => kv.1 == k) = true
  · rw [if_pos h]
    exact dictGet_map_other k v k' hk d
  · rw [if_neg h]
    exact dictGet_append_other k v k' hk d

/-- C3: a token minted by `create_access_token` with TTL `ttl` decodes, at
any instant strictly before expiry, to the original claims dict with the
"exp" entry set to issuance time plus TTL; decoding yields null (None)
both at or after expiry and under a different verification key, and the
two failure outcomes are the very same value, so the caller cannot tell
them apart. -/
theorem c3_token_roundtrip (data : List (String × Int)) (now ttl : Int)
    (key : String) (t t2 : Int) (key2 : String)
    (hbefore : t < now + ttl) (hafter : now + ttl ≤ t2) (hkey : key2 ≠ key) :
    (decode_access_token (create_access_token data now ttl key) key t
      = some (dictSet data "exp" (now + ttl))) ∧
    (∀ k, k ≠ "exp" →
      dictGet (dictSet data "exp" (now + ttl)) k = dictGet data k) ∧
    (dictGet (dictSet data "exp" (now + ttl)) "exp" = some (now + ttl)) ∧
    (decode_access_token (create_access_token data now ttl key) key t2
      = none) ∧
    (∀ t3, decode_access_token (create_access_token data now ttl key) key2 t3
      = none) ∧
    (decode_access_token (create_access_token data now ttl key) key t2
      = decode_access_token (create_access_token data now ttl key) key2 t2) := by
  have hget : dictGet (dictSet data "exp" (now + ttl)) "exp"
      = some (now + ttl) := dictGet_dictSet_same data "exp" (now + ttl)
  have hkey2 : ¬((create_access_token data now ttl key).key = key2) := by
    simp [create_access_token]
    exact fun h => hkey h.symm
  refine ⟨?_, ?_, hget, ?_, ?_, ?_⟩
  · simp [decode_access_token, create_access_token] at hget ⊢
    rw [hget]
    simp
    omega
  · intro k hk
    exact dictGet_dictSet_other data "exp" (now + ttl) k hk
  · simp [decode_access_token, create_access_token] at hget ⊢
    rw [hget]
    simp
    omega
  · intro t3
    simp only [decode_access_token]
    rw [if_neg hkey2]
  · simp only [decode_access_token]
    rw [if_neg hkey2]
    simp [create_access_token] at hget ⊢
    rw [hget]
    simp
    omega

/-- C3 witness: instantiation at claims sub=7, issued at 100 with TTL 60,
checked at 130 (valid) and 160 (expired), against key "k" and wrong key
"x". -/
theorem c3_token_roundtrip_witness :
    ((130 : Int) < 100 + 60 ∧ (100 : Int) + 60 ≤ 160 ∧ "x" ≠ "k") ∧
    (decode_access_token
        (create_access_token [("sub", 7)] 100 60 "k") "k" 130
      = some (dictSet [("sub", 7)] "exp" 160)) ∧
    (decode_access_token
        (create_access_token [("sub", 7)] 100 60 "k") "k" 160 = none) := by
  have h := c3_token_roundtrip [("sub", 7)] 100 60 "k" 130 160 "x"
    (by norm_num) (by norm_num) (by decide)
  exact ⟨⟨by norm_num, by norm_num, by decide⟩, by simpa using h.1, h.2.2.2.1⟩

/-- C6: registering a fresh username succeeds with 200 and appends exactly
one user row; registering the same username again is answered 409 and
leaves the user table (and the whole state) unchanged. -/
theorem c6_register_twice (st : AuthDB) (username p1 p2 : String)
    (hfree : st.users.find? (fun u => u.username == username) = none)
    (hp1 : p1.length ≤ 72) (hp2 : p2.length ≤ 72) :
    (register username p1 st).1.status = 200 ∧
    (register username p1 st).1.code = 200 ∧
    (register username p1 st).2.users
      = st.users ++ [⟨st.nextUserId, username, get_password_hash p1⟩] ∧
    register username p2 (register username p1 st).2
      = (⟨409, 409, RespData.null, "用户名已存在"⟩,
         (register username p1 st).2) := by
  have hnl1 : ¬(p1.length > 72) := by omega
  have hnl2 : ¬(p2.length > 72) := by omega
  have hr1 : register username p1 st
      = (⟨200, 200, RespData.userData st.nextUserId username, "注册成功"⟩,
         ⟨st.users ++ [⟨st.nextUserId, username, get_password_hash p1⟩],
           st.nextUserId + 1⟩) := by
    simp [register, hnl1, hfree]
  rw [hr1]
  refine ⟨rfl, rfl, rfl, ?_⟩
  simp [register, hnl2, List.find?_append, hfree, List.find?]

/-- C6 witness: registering "alice" twice on an empty user table. -/
theorem c6_register_twice_witness :
    (([] : List User).find? (fun u => u.username == "alice") = none
      ∧ ("secret1".length ≤ 72) ∧ ("secret2".length ≤ 72)) ∧
    (register "alice" "secret1" ⟨[], 1⟩).1.status = 200 ∧
    (register "alice" "secret1" ⟨[], 1⟩).2.users = [⟨1, "alice", "secret1"⟩] ∧
    (register "alice" "secret2"
        (register "alice" "secret1" ⟨[], 1⟩).2).1.code = 409 := by
  have h := c6_register_twice ⟨[], 1⟩ "alice" "secret1" "secret2"
    (by decide) (by decide) (by decide)
  refine ⟨⟨by decide, by decide, by decide⟩, h.1, ?_, ?_⟩
  · rw [h.2.2.1]
    rfl
  · rw [h.2.2.2]

/-- C9: the 401 answered for an unknown username and the 401 answered for
a known username with a failing password check are the same response
value, message included, so a client cannot distinguish the two causes. -/
theorem c9_login_indistinguishable (st : AuthDB) (u1 p1 u2 p2 : String)
    (now ttl : Int) (key : String)
    (hunknown : st.users.find? (fun u => u.username == u1) = none)
    (u : User)
    (hknown : st.users.find? (fun u' => u'.username == u2) = some u)
    (hwrong : verify_password p2 u.password_hash = false)
    (hl1 : p1.length ≤ 72) (hl2 : p2.length ≤ 72) :
    login u1 p1 st now ttl key
      = ⟨401, 401, RespData.null, "用户名或密码错误"⟩ ∧
    login u2 p2 st now ttl key
      = ⟨401, 401, RespData.null, "用户名或密码错误"⟩ ∧
    login u1 p1 st now ttl key = login u2 p2 st now ttl key := by
  have hnl1 : ¬(p1.length > 72) := by omega
  have hnl2 : ¬(p2.length > 72) := by omega
  have h1 : login u1 p1 st now ttl key
      = ⟨401, 401, RespData.null, "用户名或密码错误"⟩ := by
    simp [login, hnl1, hunknown]
  have h2 : login u2 p2 st now ttl key
      = ⟨401, 401, RespData.null, "用户名或密码错误"⟩ := by
    simp [login, hnl2, hknown, hwrong]
  exact ⟨h1, h2, by rw [h1, h2]⟩

/-- C9 witness: one stored user "bob" with password "pw"; login as unknown
"eve" and login as "bob" with the wrong password "no" produce the same 401
envelope. -/
theorem c9_login_indistinguishable_witness :
    (login "eve" "z" ⟨[⟨1, "bob", "pw"⟩], 2⟩ 0 60 "k"
      = login "bob" "no" ⟨[⟨1, "bob", "pw"⟩], 2⟩ 0 60 "k") ∧
    login "eve" "z" ⟨[⟨1, "bob", "pw"⟩], 2⟩ 0 60 "k"
      = ⟨401, 401, RespData.null, "用户名或密码错误"⟩ := by
  have h := c9_login_indistinguishable ⟨[⟨1, "bob", "pw"⟩], 2⟩
    "eve" "z" "bob" "no" 0 60 "k" (by decide) ⟨1, "bob", "pw"⟩
    (by decide) (by decide) (by decide) (by decide)
  exact ⟨h.2.2, h.1⟩

/-- C4: for each of categories, tags and ticket categories, deleting an
unknown id answers 404 leaving the table as is; deleting a row with at
least one referencing post (resp. ticket) answers 400 and leaves the table
as is; deleting a row without references answers 200 with an empty data
object and removes exactly that row. -/
theorem c4_delete_reference_guard (id : Nat) (cats : List Category)
    (posts : List Post) (tags : List Tag) (links : List (Nat × Nat))
    (tcats : List TicketCategory) (tickets : List Ticket) :
    ((cats.find? (fun c => c.id == id) = none →
      delete_category id cats posts
        = (⟨404, 404, RespData.empty, "category not found"⟩, cats)) ∧
     (∀ cat, cats.find? (fun c => c.id == id) = some cat →
      0 < (posts.filter (fun p => p.category_id == some id)).length →
      delete_category id cats posts
        = (⟨400, 400, RespData.empty, "category has posts, cannot delete"⟩,
           cats)) ∧
     (∀ cat, cats.find? (fun c => c.id == id) = some cat →
      (posts.filter (fun p => p.category_id == some id)).length = 0 →
      delete_category id cats posts
        = (⟨200, 200, RespData.empty, "category deleted"⟩,
           cats.filter (fun c => c.id ≠ id)))) ∧
    ((tags.find? (fun t => t.id == id) = none →
      delete_tag id tags posts links
        = (⟨404, 404, RespData.empty, "tag not found"⟩, tags)) ∧
     (∀ tg, tags.find? (fun t => t.id == id) = some tg →
      0 < (links.filter (fun l =>
        l.2 == id && posts.any (fun p => p.id == l.1))).length →
      delete_tag id tags posts links
        = (⟨400, 400, RespData.empty, "tag has posts, cannot delete"⟩,
           tags)) ∧
     (∀ tg, tags.find? (fun t => t.id == id) = some tg →
      (links.filter (fun l =>
        l.2 == id && posts.any (fun p => p.id == l.1))).length = 0 →
      delete_tag id tags posts links
        = (⟨200, 200, RespData.empty, "tag deleted"⟩,
           tags.filter (fun t => t.id ≠ id)))) ∧
    ((tcats.find? (fun c => c.id == id) = none →
      delete_ticket_category id tcats tickets
        = (⟨404, 404, RespData.empty, "ticket category not found"⟩, tcats)) ∧
     (∀ tc, tcats.find? (fun c => c.id == id) = some tc →
      0 < (tickets.filter (fun t => t.category_id == some id)).length →
      delete_ticket_category id tcats tickets
        = (⟨400, 400, RespData.empty,
            "ticket category has tickets, cannot delete"⟩, tcats)) ∧
     (∀ tc, tcats.find? (fun c => c.id == id) = some tc →
      (tickets.filter (fun t => t.category_id == some id)).length = 0 →
      delete_ticket_category id tcats tickets
        = (⟨200, 200, RespData.empty, "ticket category deleted"⟩,
           tcats.filter (fun c => c.id ≠ id)))) := by
  refine ⟨⟨?_, ?_, ?_⟩, ⟨?_, ?_, ?_⟩, ⟨?_, ?_, ?_⟩⟩
  · intro h
    simp [delete_category, h]
  · intro cat hfind hrefs
    simp [delete_category, hfind, hrefs]
  · intro cat hfind hrefs
    simp [delete_category, hfind, hrefs]
  · intro h
    simp [delete_tag, h]
  · intro tg hfind hrefs
    simp [delete_tag, hfind, hrefs]
  · intro tg hfind hrefs
    simp [delete_tag, hfind, hrefs]
  · intro h
    simp [delete_ticket_category, h]
  · intro tc hfind hrefs
    simp [delete_ticket_category, hfind, hrefs]
  · intro tc hfind hrefs
    simp [delete_ticket_category, hfind, hrefs]

/-- C4 witness: category 1 referenced by one post cannot be deleted (400,
table unchanged); without references it is deleted; id 2 is 404; a tag
without links is deleted; a ticket category with one ticket is kept. -/
theorem c4_delete_reference_guard_witness :
    delete_category 1 [⟨1, "a"⟩]
        [⟨1, "t", "s", "c", some 1, 5, none, 0, 0⟩]
      = (⟨400, 400, RespData.empty, "category has posts, cannot delete"⟩,
         [⟨1, "a"⟩]) ∧
    delete_category 1 [⟨1, "a"⟩] []
      = (⟨200, 200, RespData.empty, "category deleted"⟩, []) ∧
    delete_category 2 [⟨1, "a"⟩] []
      = (⟨404, 404, RespData.empty, "category not found"⟩, [⟨1, "a"⟩]) ∧
    delete_tag 1 [⟨1, "life"⟩] [] []
      = (⟨200, 200, RespData.empty, "tag deleted"⟩, []) ∧
    delete_ticket_category 1 [⟨1, "bug", none⟩]
        [⟨1, "t", "d", "open", "low", some 1, none, 0, 0⟩]
      = (⟨400, 400, RespData.empty,
          "ticket category has tickets, cannot delete"⟩, [⟨1, "bug", none⟩]) := by
  have h1 := c4_delete_reference_guard 1 [⟨1, "a"⟩]
    [⟨1, "t", "s", "c", some 1, 5, none, 0, 0⟩] [⟨1, "life"⟩] []
    [⟨1, "bug", none⟩] [⟨1, "t", "d", "open", "low", some 1, none, 0, 0⟩]
  have h2 := c4_delete_reference_guard 1 [⟨1, "a"⟩] [] [⟨1, "life"⟩] []
    [⟨1, "bug", none⟩] []
  have h3 := c4_delete_reference_guard 2 [⟨1, "a"⟩] [] [] [] [] []
  refine ⟨h1.1.2.1 ⟨1, "a"⟩ (by decide) (by decide), ?_,
    h3.1.1 (by decide), ?_, h1.2.2.2.1 ⟨1, "bug", none⟩ (by decide) (by decide)⟩
  · have := h2.1.2.2 ⟨1, "a"⟩ (by decide) (by decide)
    simpa using this
  · have := h2.2.1.2.2 ⟨1, "life"⟩ (by decide) (by decide)
    simpa using this

/-- C5: when an existing comment is deleted by its author, the response is
the 200 deletion envelope, no row with the deleted id remains, every
direct child survives with `parent_id` cleared and every other field kept,
every non-child row survives unchanged, and every surviving row is an
original row, at most with `parent_id` cleared when it was a direct
child. -/
theorem c5_delete_comment_detaches (comments : List Comment) (id uid : Nat)
    (cm : Comment)
    (hfind : comments.find? (fun c => c.id == id) = some cm)
    (hauthor : cm.user_id = some uid) :
    (delete_comment id uid comments).1
      = ⟨200, 200, RespData.empty, "comment deleted"⟩ ∧
    (∀ c' ∈ (delete_comment id uid comments).2, c'.id ≠ id) ∧
    (∀ c ∈ comments, c.id ≠ id → c.parent_id = some id →
      { c with parent_id := none } ∈ (delete_comment id uid comments).2) ∧
    (∀ c ∈ comments, c.id ≠ id → c.parent_id ≠ some id →
      c ∈ (delete_comment id uid comments).2) ∧
    (∀ c' ∈ (delete_comment id uid comments).2, ∃ c ∈ comments,
      c' = c ∨ (c.parent_id = some id ∧ c' = { c with parent_id := none })) := by
  have hst : (delete_comment id uid comments).2
      = (comments.map (fun c =>
          if c.parent_id == some id then { c with parent_id := none }
          else c)).filter (fun c => c.id ≠ id) := by
    simp [delete_comment, hfind, hauthor]
  refine ⟨by simp [delete_comment, hfind, hauthor], ?_, ?_, ?_, ?_⟩
  · intro c' hc'
    rw [hst] at hc'
    exact of_decide_eq_true (List.mem_filter.mp hc').2
  · intro c hc hcid hcp
    rw [hst]
    refine List.mem_filter.mpr ⟨?_, ?_⟩
    · exact List.mem_map.mpr ⟨c, hc, by simp [hcp]⟩
    · simpa using hcid
  · intro c hc hcid hcp
    rw [hst]
    refine List.mem_filter.mpr ⟨?_, ?_⟩
    · refine List.mem_map.mpr ⟨c, hc, ?_⟩
      have : (c.parent_id == some id) = false := by
        simpa using hcp
      simp [this]
    · simpa using hcid
  · intro c' hc'
    rw [hst] at hc'
    have hm := (List.mem_filter.mp hc').1
    rcases List.mem_map.mp hm with ⟨c, hc, heq⟩
    by_cases hcp : (c.parent_id == some id) = true
    · refine ⟨c, hc, Or.inr ⟨by simpa using hcp, ?_⟩⟩
      rw [← heq]
      simp [hcp]
    · refine ⟨c, hc, Or.inl ?_⟩
      rw [← heq]
      simp [hcp]

/-- C5 witness: comment 1 (owned by user 9) with children 2 and 3 and an
unrelated comment 4; deleting comment 1 as user 9 keeps 2, 3 promoted to
top level and keeps 4 as is. -/
theorem c5_delete_comment_detaches_witness :
    (delete_comment 1 9
        [⟨1, 1, none, "a", none, "r", 1, some 9⟩,
         ⟨2, 1, some 1, "b", none, "s", 2, none⟩,
         ⟨3, 1, some 1, "c", none, "t", 3, none⟩,
         ⟨4, 1, none, "d", none, "u", 4, none⟩]).1.code = 200 ∧
    (delete_comment 1 9
        [⟨1, 1, none, "a", none, "r", 1, some 9⟩,
         ⟨2, 1, some 1, "b", none, "s", 2, none⟩,
         ⟨3, 1, some 1, "c", none, "t", 3, none⟩,
         ⟨4, 1, none, "d", none, "u", 4, none⟩]).2
      = [⟨2, 1, none, "b", none, "s", 2, none⟩,
         ⟨3, 1, none, "c", none, "t", 3, none⟩,
         ⟨4, 1, none, "d", none, "u", 4, none⟩] := by
  have h := c5_delete_comment_detaches
    [⟨1, 1, none, "a", none, "r", 1, some 9⟩,
     ⟨2, 1, some 1, "b", none, "s", 2, none⟩,
     ⟨3, 1, some 1, "c", none, "t", 3, none⟩,
     ⟨4, 1, none, "d", none, "u", 4, none⟩] 1 9
    ⟨1, 1, none, "a", none, "r", 1, some 9⟩ (by decide) (by decide)
  refine ⟨by rw [h.1], by decide⟩

theorem find?_map_update (posts : List Post) (id : Nat) (f : Post → Post)
    (hf : ∀ q, (f q).id = q.id) :
    (posts.map (fun q => if q.id == id then f q else q)).find?
        (fun q => q.id == id)
      = (posts.find? (fun q => q.id == id)).map f := by
  induction posts with
  | nil => rfl
  | cons a l ih =>
    by_cases ha : (a.id == id) = true
    · have hfa : ((f a).id == id) = true := by
        rw [hf a]
        exact ha
      rw [List.map_cons, if_pos ha]
      have h1 : (f a :: l.map (fun q => if q.id == id then f q else q)).find?
          (fun q => q.id == id) = some (f a) :=
        List.find?_cons_of_pos _ hfa
      have h2 : (a :: l).find? (fun q => q.id == id) = some a :=
        List.find?_cons_of_pos _ ha
      rw [h1, h2]
      rfl
    · rw [List.map_cons, if_neg ha]
      have h1 : (a :: l.map (fun q => if q.id == id then f q else q)).find?
          (fun q => q.id == id)
          = (l.map (fun q => if q.id == id then f q else q)).find?
            (fun q => q.id == id) :=
        List.find?_cons_of_neg _ ha
      have h2 : (a :: l).find? (fun q => q.id == id)
          = l.find? (fun q => q.id == id) :=
        List.find?_cons_of_neg _ ha
      rw [h1, h2]
      exact ih

/-- C8 (amended): on an existing post, one call to the view (resp. like)
endpoint answers 200 and increments exactly the `views` (resp. `likes`)
field by one, leaving every other field and every other post unchanged; n
repeated view calls add n with no deduplication; on a missing post the
body envelope carries code 404 and message "post not found" while the HTTP
status is 200, the JSONResponse default. -/
theorem c8_view_like_increment (posts : List Post) (id : Nat) (p : Post)
    (hfind : posts.find? (fun q => q.id == id) = some p) :
    (add_view id posts).1 = ⟨200, 200, RespData.empty, "view +1"⟩ ∧
    (add_like id posts).1 = ⟨200, 200, RespData.empty, "like +1"⟩ ∧
    ((add_view id posts).2.find? (fun q => q.id == id)
      = some { p with views := p.views + 1 }) ∧
    ((add_like id posts).2.find? (fun q => q.id == id)
      = some { p with likes := p.likes + 1 }) ∧
    (∀ q ∈ posts, q.id ≠ id →
      q ∈ (add_view id posts).2 ∧ q ∈ (add_like id posts).2) ∧
    (∀ n, ((fun ps => (add_view id ps).2)^[n] posts).find?
        (fun q => q.id == id) = some { p with views := p.views + n }) ∧
    (∀ posts' : List Post, posts'.find? (fun q => q.id == id) = none →
      add_view id posts'
        = (⟨200, 404, RespData.empty, "post not found"⟩, posts')) := by
  have hview : ∀ ps (r : Post), ps.find? (fun q => q.id == id) = some r →
      (add_view id ps).2.find? (fun q => q.id == id)
        = some { r with views := r.views + 1 } := by
    intro ps r hr
    have : (add_view id ps).2 = ps.map (fun q =>
        if q.id == id then { q with views := q.views + 1 } else q) := by
      simp [add_view, hr]
    rw [this, find?_map_update ps id
      (fun q => { q with views := q.views + 1 }) (fun q => rfl), hr]
    rfl
  refine ⟨by simp [add_view, hfind], by simp [add_like, hfind],
    hview posts p hfind, ?_, ?_, ?_, ?_⟩
  · have : (add_like id posts).2 = posts.map (fun q =>
        if q.id == id then { q with likes := q.likes + 1 } else q) := by
      simp [add_like, hfind]
    rw [this, find?_map_update posts id
      (fun q => { q with likes := q.likes + 1 }) (fun q => rfl), hfind]
    rfl
  · intro q hq hqid
    have hb : (q.id == id) = false := by
      simpa using hqid
    constructor
    · have : (add_view id posts).2 = posts.map (fun r =>
          if r.id == id then { r with views := r.views + 1 } else r) := by
        simp [add_view, hfind]
      rw [this]
      exact List.mem_map.mpr ⟨q, hq, by simp [hb]⟩
    · have : (add_like id posts).2 = posts.map (fun r =>
          if r.id == id then { r with likes := r.likes + 1 } else r) := by
        simp [add_like, hfind]
      rw [this]
      exact List.mem_map.mpr ⟨q, hq, by simp [hb]⟩
  · intro n
    induction n with
    | zero => simpa using hfind
    | succ n ihn =>
      rw [Function.iterate_succ_apply']
      have := hview _ _ ihn
      rw [this]
      simp [Nat.add_assoc]
  · intro posts' hnone
    simp [add_view, hnone]

/-- C8 witness: a single post with 0 views and 0 likes; one view call and
one like call increment their counters, three iterated view calls reach 3,
and the missing-post branch answers body code 404 with HTTP status 200. -/
theorem c8_view_like_increment_witness :
    ((add_view 1 [⟨1, "t", "s", "c", none, 5, none, 0, 0⟩]).2.find?
        (fun q => q.id == 1)
      = some ⟨1, "t", "s", "c", none, 5, none, 1, 0⟩) ∧
    ((add_like 1 [⟨1, "t", "s", "c", none, 5, none, 0, 0⟩]).2.find?
        (fun q => q.id == 1)
      = some ⟨1, "t", "s", "c", none, 5, none, 0, 1⟩) ∧
    (((fun ps => (add_view 1 ps).2)^[3]
        [⟨1, "t", "s", "c", none, 5, none, 0, 0⟩]).find?
        (fun q => q.id == 1)
      = some ⟨1, "t", "s", "c", none, 5, none, 3, 0⟩) ∧
    add_view 1 [] = (⟨200, 404, RespData.empty, "post not found"⟩, []) := by
  have h := c8_view_like_increment [⟨1, "t", "s", "c", none, 5, none, 0, 0⟩]
    1 ⟨1, "t", "s", "c", none, 5, none, 0, 0⟩ (by decide)
  exact ⟨h.2.2.1, h.2.2.2.1, h.2.2.2.2.2.1 3, h.2.2.2.2.2.2 [] (by decide)⟩

/-- C8 counterexample: the claim as stated has the endpoint answer HTTP
404 for a missing post, but the not-found branch of `add_view` omits the
`status_code` argument of JSONResponse, so the HTTP status is 200 (the
body code is 404). -/
theorem c8_counterexample :
    ¬ (∀ (id : Nat) (posts : List Post),
        posts.find? (fun q => q.id == id) = none →
        (add_view id posts).1.status = 404) := by
  intro h
  have := h 1 [] rfl
  simp [add_view] at this

theorem countList_eq_zero_of_dangling (y z : Nat) (L : List Comment)
    (hz : z ∉ L.map Comment.id)
    (hy : ∀ d ∈ L, d.id = y → d.parent_id = some z) :
    ∀ fuel q, q ≠ some z → countList y (build_comment_tree fuel L q) = 0 := by
  intro fuel
  induction fuel with
  | zero => intro q _; simp [build_comment_tree, countList]
  | succ f ih =>
    intro q hq
    rw [countList_build]
    apply List.sum_eq_zero
    intro x hx
    rcases List.mem_map.mp hx with ⟨d, hd, rfl⟩
    have hdL : d ∈ L := List.mem_of_mem_filter hd
    have hdq : (d.parent_id == q) = true := (List.mem_filter.mp hd).2
    have hid0 : (if d.id = y then 1 else 0) = 0 := by
      by_cases hdy : d.id = y
      · exfalso
        have hdp := hy d hdL hdy
        rw [hdp] at hdq
        exact hq (beq_iff_eq.mp hdq).symm
      · simp [hdy]
    have hdz : d.id ≠ z := by
      intro hEq
      exact hz (hEq ▸ List.mem_map_of_mem Comment.id hdL)
    rw [hid0, ih (some d.id) (by simp [hdz])]
    rfl

/-- C7 (amended): a comment-creation request whose declared parent id is
non-null and nonzero but does not identify an existing comment on the
request's post (in particular one identifying a comment on a different
post) is answered 404 and no comment row is created; a request on a
missing post is also answered 404 with nothing stored.  The nonzero
proviso is forced by the Python truthiness check, see the C7
counterexample and C10. -/
theorem c7_parent_not_found (st : BlogDB) (cd : CommentCreate)
    (cu : Option Nat) (now p : Nat)
    (hpar : cd.parent_id = some p) (hp0 : p ≠ 0)
    (hnoparent : st.comments.find? (fun cm =>
      cm.id == p && cm.post_id == cd.post_id) = none) :
    (create_comment cd cu st now).1.status = 404 ∧
    (create_comment cd cu st now).2 = st := by
  cases hpost : st.posts.find? (fun q => q.id == cd.post_id) with
  | none => simp [create_comment, hpost]
  | some _ => simp [create_comment, hpost, hpar, hp0, hnoparent]

/-- C7 witness: a post 1 exists and comment 5 lives on post 2; creating a
comment on post 1 with parent 5 is rejected with 404 and the state is
untouched. -/
theorem c7_parent_not_found_witness :
    (create_comment ⟨1, some 5, "a", none, "hi"⟩ none
        ⟨[⟨1, "t", "s", "c", none, 5, none, 0, 0⟩],
         [⟨5, 2, none, "b", none, "x", 1, none⟩], 6⟩ 7).1.status = 404 ∧
    (create_comment ⟨1, some 5, "a", none, "hi"⟩ none
        ⟨[⟨1, "t", "s", "c", none, 5, none, 0, 0⟩],
         [⟨5, 2, none, "b", none, "x", 1, none⟩], 6⟩ 7).2
      = ⟨[⟨1, "t", "s", "c", none, 5, none, 0, 0⟩],
         [⟨5, 2, none, "b", none, "x", 1, none⟩], 6⟩ :=
  c7_parent_not_found
    ⟨[⟨1, "t", "s", "c", none, 5, none, 0, 0⟩],
     [⟨5, 2, none, "b", none, "x", 1, none⟩], 6⟩
    ⟨1, some 5, "a", none, "hi"⟩ none 7 5 rfl (by decide) (by decide)

/-- C7 counterexample: as stated the claim covers every non-null
non-matching parent id, but a request with parent_id = 0 on an existing
post slips past the truthiness-guarded parent check: the handler answers
201 and stores the row, not 404. -/
theorem c7_counterexample :
    ¬ (∀ (st : BlogDB) (cd : CommentCreate) (cu : Option Nat) (now p : Nat),
        cd.parent_id = some p →
        st.comments.find? (fun cm =>
          cm.id == p && cm.post_id == cd.post_id) = none →
        (create_comment cd cu st now).1.status = 404 ∧
        (create_comment cd cu st now).2 = st) := by
  intro h
  have := h ⟨[⟨1, "t", "s", "c", none, 5, none, 0, 0⟩], [], 1⟩
    ⟨1, some 0, "a", none, "hi"⟩ none 7 0 rfl rfl
  exact absurd this.1 (by decide)

/-- C10: on an existing post, a creation request with parent_id = 0
bypasses the parent-existence check (Python truthiness treats 0 like
None), answers 201 and stores a row with parent_id = 0; since no comment
ever has id 0, that row is dropped from the tree that
`get_post_comments` later builds for the post. -/
theorem c10_parent_zero_stored_then_dropped (st : BlogDB)
    (cd : CommentCreate) (cu : Option Nat) (now : Nat)
    (hpar : cd.parent_id = some 0)
    (post : Post)
    (hpost : st.posts.find? (fun q => q.id == cd.post_id) = some post)
    (hz : ∀ c ∈ st.comments, c.id ≠ 0)
    (hnz : st.nextCommentId ≠ 0)
    (hfreshid : ∀ c ∈ st.comments, c.id ≠ st.nextCommentId) :
    (create_comment cd cu st now).1.status = 201 ∧
    (create_comment cd cu st now).2.comments
      = st.comments ++ [⟨st.nextCommentId, cd.post_id, some 0,
          cd.author_name, cd.author_email, cd.content, now, cu⟩] ∧
    (∃ forest, get_post_comments cd.post_id (create_comment cd cu st now).2
        = some forest ∧ countList st.nextCommentId forest = 0) := by
  have hres : create_comment cd cu st now
      = (⟨201, 201,
          RespData.commentData ⟨st.nextCommentId, cd.post_id, cd.parent_id,
            cd.author_name, cd.author_email, cd.content, now, cu⟩,
          "comment created"⟩,
         ⟨st.posts,
          st.comments ++ [⟨st.nextCommentId, cd.post_id, cd.parent_id,
            cd.author_name, cd.author_email, cd.content, now, cu⟩],
          st.nextCommentId + 1⟩) := by
    simp [create_comment, hpost, hpar]
  rw [hres]
  rw [hpar]
  refine ⟨rfl, rfl, ?_⟩
  have htree : get_post_comments cd.post_id
      (⟨st.posts,
        st.comments ++ [(⟨st.nextCommentId, cd.post_id, some 0,
          cd.author_name, cd.author_email, cd.content, now, cu⟩ : Comment)],
        st.nextCommentId + 1⟩ : BlogDB)
      = some (build_comment_tree
          (List.insertionSort (fun a b => a.created_at ≤ b.created_at)
            ((st.comments ++ [(⟨st.nextCommentId, cd.post_id, some 0,
              cd.author_name, cd.author_email, cd.content, now, cu⟩ :
                Comment)]).filter
              (fun c => c.post_id == cd.post_id))).length
          (List.insertionSort (fun a b => a.created_at ≤ b.created_at)
            ((st.comments ++ [(⟨st.nextCommentId, cd.post_id, some 0,
              cd.author_name, cd.author_email, cd.content, now, cu⟩ :
                Comment)]).filter
              (fun c => c.post_id == cd.post_id)))
          none) := by
    simp only [get_post_comments, hpost]
  refine ⟨_, htree, ?_⟩
  · have hmem : ∀ d ∈ List.insertionSort
        (fun a b => a.created_at ≤ b.created_at)
        ((st.comments ++ [(⟨st.nextCommentId, cd.post_id, some 0,
          cd.author_name, cd.author_email, cd.content, now, cu⟩ :
            Comment)]).filter (fun c => c.post_id == cd.post_id)),
        d ∈ st.comments ∨ d = (⟨st.nextCommentId, cd.post_id, some 0,
          cd.author_name, cd.author_email, cd.content, now, cu⟩ :
            Comment) := by
      intro d hd
      have hd' := List.mem_of_mem_filter ((List.mem_insertionSort _).mp hd)
      rcases List.mem_append.mp hd' with h1 | h2
      · exact Or.inl h1
      · exact Or.inr (List.mem_singleton.mp h2)
    refine countList_eq_zero_of_dangling st.nextCommentId 0 _ ?_ ?_ _ _
      (by simp)
    · intro hmem0
      rcases List.mem_map.mp hmem0 with ⟨d, hd, hdid⟩
      rcases hmem d hd with h1 | h2
      · exact hz d h1 hdid
      · rw [h2] at hdid
        exact hnz hdid
    · intro d hd hdy
      rcases hmem d hd with h1 | h2
      · exact absurd hdy (hfreshid d h1)
      · rw [h2]

/-- C10 witness: empty comment table, post 1 present, next comment id 1:
creating with parent 0 answers 201, stores the row with parent_id = 0,
and the comment tree of post 1 drops it (the forest is empty). -/
theorem c10_parent_zero_stored_then_dropped_witness :
    (create_comment ⟨1, some 0, "a", none, "hi"⟩ none
        ⟨[⟨1, "t", "s", "c", none, 5, none, 0, 0⟩], [], 1⟩ 7).1.status = 201 ∧
    (create_comment ⟨1, some 0, "a", none, "hi"⟩ none
        ⟨[⟨1, "t", "s", "c", none, 5, none, 0, 0⟩], [], 1⟩ 7).2.comments
      = [⟨1, 1, some 0, "a", none, "hi", 7, none⟩] ∧
    (∃ forest, get_post_comments 1
        (create_comment ⟨1, some 0, "a", none, "hi"⟩ none
          ⟨[⟨1, "t", "s", "c", none, 5, none, 0, 0⟩], [], 1⟩ 7).2
        = some forest ∧ countList 1 forest = 0) := by
  have h := c10_parent_zero_stored_then_dropped
    ⟨[⟨1, "t", "s", "c", none, 5, none, 0, 0⟩], [], 1⟩
    ⟨1, some 0, "a", none, "hi"⟩ none 7 rfl
    ⟨1, "t", "s", "c", none, 5, none, 0, 0⟩ (by decide)
    (by intro c hc; simp at hc) (by decide)
    (by intro c hc; simp at hc)
  exact ⟨h.1, by simpa using h.2.1, h.2.2⟩

/-- C2 (amended): for tickets the returned total is exactly the number of
rows matching the applied filters, for every page and size, and the items
are the (page-1)*size..page*size-1 window of the filtered, ordered rows;
the window over 12 matching rows contains 5 rows on page 2 of size 5 and 2
rows on page 3.  For posts the items are likewise the window of the
filtered ordered rows and the total is correct when no category and no tag
filter is applied; with those filters the count query cross-joins (see the
C2 counterexample) and the returned total is `list_posts_total`. -/
theorem c2_pagination (page size : Nat) (hpage : 1 ≤ page)
    (hsize : 1 ≤ size) (search status priority : Option String)
    (category_id : Option Nat) (tickets : List Ticket)
    (psearch pcategory ptag : Option String) (pdate : Option Nat)
    (posts : List Post) (cats : List Category) (tags : List Tag)
    (links : List (Nat × Nat)) :
    (list_tickets page size search status priority category_id tickets
      = ⟨200, 200, RespData.ticketsPage page size
          ((tickets.filter
            (ticketMatches search status priority category_id)).length)
          (((List.insertionSort (fun a b => b.created_at ≤ a.created_at)
            (tickets.filter
              (ticketMatches search status priority category_id))).drop
            ((page - 1) * size)).take size),
          "success"⟩) ∧
    ((((List.insertionSort (fun a b => b.created_at ≤ a.created_at)
        (tickets.filter
          (ticketMatches search status priority category_id))).drop
        ((page - 1) * size)).take size).length
      = min size ((tickets.filter
          (ticketMatches search status priority category_id)).length
          - (page - 1) * size)) ∧
    ((tickets.filter
        (ticketMatches search status priority category_id)).length = 12 →
      (((List.insertionSort (fun a b => b.created_at ≤ a.created_at)
        (tickets.filter
          (ticketMatches search status priority category_id))).drop
        ((2 - 1) * 5)).take 5).length = 5 ∧
      (((List.insertionSort (fun a b => b.created_at ≤ a.created_at)
        (tickets.filter
          (ticketMatches search status priority category_id))).drop
        ((3 - 1) * 5)).take 5).length = 2) ∧
    (list_posts page size psearch pcategory ptag pdate posts cats tags links
      = ⟨200, 200, RespData.postsPage page size
          (list_posts_total psearch pcategory ptag pdate posts cats tags)
          (((List.insertionSort (fun a b => b.date ≤ a.date)
            (posts.filter (postMatches psearch pcategory ptag pdate cats
              tags links))).drop ((page - 1) * size)).take size),
          "success"⟩) ∧
    (pcategory = none → ptag = none →
      list_posts_total psearch pcategory ptag pdate posts cats tags
        = (posts.filter (postMatches psearch pcategory ptag pdate cats tags
            links)).length) := by
  refine ⟨rfl, ?_, ?_, rfl, ?_⟩
  · rw [List.length_take, List.length_drop, List.length_insertionSort]
  · intro h12
    constructor
    · rw [List.length_take, List.length_drop, List.length_insertionSort,
        h12]
      decide
    · rw [List.length_take, List.length_drop, List.length_insertionSort,
        h12]
      decide
  · intro hc ht
    subst hc
    subst ht
    unfold list_posts_total
    rw [Nat.mul_one, Nat.mul_one]
    congr 1
    apply List.filter_congr
    intro p _
    simp [postMatches]

/-- C2 witness: twelve tickets, no filters: page 2 of size 5 has 5 rows
and page 3 has the remaining 2; one post with no category/tag filter has a
correct total of 1. -/
theorem c2_pagination_witness :
    ((((List.insertionSort (fun a b => b.created_at ≤ a.created_at)
      (([⟨1, "", "", "open", "low", none, none, 1, 0⟩,
         ⟨2, "", "", "open", "low", none, none, 2, 0⟩,
         ⟨3, "", "", "open", "low", none, none, 3, 0⟩,
         ⟨4, "", "", "open", "low", none, none, 4, 0⟩,
         ⟨5, "", "", "open", "low", none, none, 5, 0⟩,
         ⟨6, "", "", "open", "low", none, none, 6, 0⟩,
         ⟨7, "", "", "open", "low", none, none, 7, 0⟩,
         ⟨8, "", "", "open", "low", none, none, 8, 0⟩,
         ⟨9, "", "", "open", "low", none, none, 9, 0⟩,
         ⟨10, "", "", "open", "low", none, none, 10, 0⟩,
         ⟨11, "", "", "open", "low", none, none, 11, 0⟩,
         ⟨12, "", "", "open", "low", none, none, 12, 0⟩] : List Ticket).filter
        (ticketMatches none none none none))).drop ((2 - 1) * 5)).take
        5).length = 5) ∧
    ((((List.insertionSort (fun a b => b.created_at ≤ a.created_at)
      (([⟨1, "", "", "open", "low", none, none, 1, 0⟩,
         ⟨2, "", "", "open", "low", none, none, 2, 0⟩,
         ⟨3, "", "", "open", "low", none, none, 3, 0⟩,
         ⟨4, "", "", "open", "low", none, none, 4, 0⟩,
         ⟨5, "", "", "open", "low", none, none, 5, 0⟩,
         ⟨6, "", "", "open", "low", none, none, 6, 0⟩,
         ⟨7, "", "", "open", "low", none, none, 7, 0⟩,
         ⟨8, "", "", "open", "low", none, none, 8, 0⟩,
         ⟨9, "", "", "open", "low", none, none, 9, 0⟩,
         ⟨10, "", "", "open", "low", none, none, 10, 0⟩,
         ⟨11, "", "", "open", "low", none, none, 11, 0⟩,
         ⟨12, "", "", "open", "low", none, none, 12, 0⟩] : List Ticket).filter
        (ticketMatches none none none none))).drop ((3 - 1) * 5)).take
        5).length = 2) ∧
    list_posts_total none none none none
        [⟨1, "t", "s", "c", some 1, 5, none, 0, 0⟩] [⟨1, "A"⟩] []
      = (([⟨1, "t", "s", "c", some 1, 5, none, 0, 0⟩] : List Post).filter
          (postMatches none none none none [⟨1, "A"⟩] [] [])).length := by
  have h := c2_pagination 2 5 (by norm_num) (by norm_num)
    none none none none
    [⟨1, "", "", "open", "low", none, none, 1, 0⟩,
     ⟨2, "", "", "open", "low", none, none, 2, 0⟩,
     ⟨3, "", "", "open", "low", none, none, 3, 0⟩,
     ⟨4, "", "", "open", "low", none, none, 4, 0⟩,
     ⟨5, "", "", "open", "low", none, none, 5, 0⟩,
     ⟨6, "", "", "open", "low", none, none, 6, 0⟩,
     ⟨7, "", "", "open", "low", none, none, 7, 0⟩,
     ⟨8, "", "", "open", "low", none, none, 8, 0⟩,
     ⟨9, "", "", "open", "low", none, none, 9, 0⟩,
     ⟨10, "", "", "open", "low", none, none, 10, 0⟩,
     ⟨11, "", "", "open", "low", none, none, 11, 0⟩,
     ⟨12, "", "", "open", "low", none, none, 12, 0⟩]
    none none none none [⟨1, "t", "s", "c", some 1, 5, none, 0, 0⟩]
    [⟨1, "A"⟩] [] []
  have h12 := h.2.2.1 (by decide)
  exact ⟨h12.1, h12.2, h.2.2.2.2 rfl rfl⟩

/-- C2 counterexample: a category filter makes the posts count query a
cross join, so the returned total is not the number of matching rows: two
posts in categories "A" and "B", filtered by category "A", give one
matching row but total 2. -/
theorem c2_counterexample :
    ¬ (∀ (page size : Nat) (search category tag : Option String)
        (dateF : Option Nat) (posts : List Post) (cats : List Category)
        (tags : List Tag) (links : List (Nat × Nat)),
        1 ≤ page → 1 ≤ size →
        list_posts page size search category tag dateF posts cats tags links
          = ⟨200, 200, RespData.postsPage page size
              ((posts.filter (postMatches search category tag dateF cats
                tags links)).length)
              (((List.insertionSort (fun a b => b.date ≤ a.date)
                (posts.filter (postMatches search category tag dateF cats
                  tags links))).drop ((page - 1) * size)).take size),
              "success"⟩) := by
  intro h
  have := h 1 10 none (some "A") none none
    [⟨1, "t", "s", "c", some 1, 5, none, 0, 0⟩,
     ⟨2, "u", "v", "w", some 2, 6, none, 0, 0⟩]
    [⟨1, "A"⟩, ⟨2, "B"⟩] [] [] (by norm_num) (by norm_num)
  exact absurd this (by decide)

/-- C1 (amended): over a comment list with distinct ids whose parent links
point strictly backwards (as holds for creation-time ordered rows), the
forest built by `build_comment_tree` contains each attached comment
exactly once - as a direct child of the node carrying its parent id when
the parent is declared, at the top level when the parent is null - and
drops every comment whose attachment flag is false; a comment whose
declared parent id is absent from the list is never attached, and the
top-level nodes are exactly the null-parent comments in order.  (The
attachment flag, not bare presence of the parent id, is what decides
survival: see the C1 counterexample for a comment under a dropped
orphan.) -/
theorem c1_comment_tree_forest (L : List Comment)
    (hnodup : (L.map Comment.id).Nodup) (hpe : parentsEarlier L)
    (fuel : Nat) (hfuel : L.length ≤ fuel) :
    (∀ c b, (c, b) ∈ attachedPairs L →
      ((c.parent_id = none → b = true) ∧
       (b = true → countList c.id (build_comment_tree fuel L none) = 1) ∧
       (∀ p, b = true → c.parent_id = some p →
         childList p c.id (build_comment_tree fuel L none) = 1) ∧
       (b = false → countList c.id (build_comment_tree fuel L none) = 0) ∧
       (∀ p, c.parent_id = some p → p ∉ L.map Comment.id → b = false))) ∧
    ((build_comment_tree fuel L none).map CommentNode.id
      = (L.filter (fun c => c.parent_id == none)).map Comment.id) := by
  constructor
  · intro c b hm
    exact attached_tree_spec L hnodup hpe fuel hfuel (c, b) hm
  · cases fuel with
    | zero =>
      have hL : L = [] := List.length_eq_zero.mp (Nat.le_zero.mp hfuel)
      subst hL
      simp [build_comment_tree]
    | succ f => exact ids_build f L none

/-- C1 witness: comment 1 (null parent) and its reply comment 2: in the
built forest comment 2 appears exactly once, as a direct child of node 1,
and the top level consists of comment 1 alone. -/
theorem c1_comment_tree_forest_witness :
    ((([⟨1, 1, none, "a", none, "x", 1, none⟩,
        ⟨2, 1, some 1, "b", none, "y", 2, none⟩] : List Comment).map
        Comment.id).Nodup ∧
      parentsEarlier [⟨1, 1, none, "a", none, "x", 1, none⟩,
        ⟨2, 1, some 1, "b", none, "y", 2, none⟩]) ∧
    countList 2 (build_comment_tree 2
      [⟨1, 1, none, "a", none, "x", 1, none⟩,
       ⟨2, 1, some 1, "b", none, "y", 2, none⟩] none) = 1 ∧
    childList 1 2 (build_comment_tree 2
      [⟨1, 1, none, "a", none, "x", 1, none⟩,
       ⟨2, 1, some 1, "b", none, "y", 2, none⟩] none) = 1 ∧
    (build_comment_tree 2
      [⟨1, 1, none, "a", none, "x", 1, none⟩,
       ⟨2, 1, some 1, "b", none, "y", 2, none⟩] none).map CommentNode.id
      = [1] := by
  have hnd : (([⟨1, 1, none, "a", none, "x", 1, none⟩,
      ⟨2, 1, some 1, "b", none, "y", 2, none⟩] : List Comment).map
      Comment.id).Nodup := by decide
  have hpe : parentsEarlier [⟨1, 1, none, "a", none, "x", 1, none⟩,
      ⟨2, 1, some 1, "b", none, "y", 2, none⟩] := ⟨by decide, by decide⟩
  have h := c1_comment_tree_forest
    [⟨1, 1, none, "a", none, "x", 1, none⟩,
     ⟨2, 1, some 1, "b", none, "y", 2, none⟩] hnd hpe 2 (by norm_num)
  have hc := h.1 ⟨2, 1, some 1, "b", none, "y", 2, none⟩ true (by decide)
  refine ⟨⟨hnd, hpe⟩, hc.2.1 rfl, hc.2.2.1 1 rfl rfl, ?_⟩
  rw [h.2]
  rfl

/-- C1 counterexample: as stated the claim promises that every comment
whose declared parent id occurs in the input appears exactly once in the
forest; but when the parent is itself an orphan (its own declared parent
is absent) the parent is dropped and the child disappears with it:
comment 1 declares the absent parent 99, comment 2 declares the present
parent 1, and the built forest is empty, so comment 2 appears zero
times. -/
theorem c1_counterexample :
    ¬ (∀ (L : List Comment),
        (∀ c ∈ L, c.post_id = 1) →
        L.Pairwise (fun a b => a.created_at ≤ b.created_at) →
        (L.map Comment.id).Nodup →
        parentsEarlier L →
        ∀ c ∈ L, ∀ p, c.parent_id = some p → p ∈ L.map Comment.id →
          countList c.id (build_comment_tree L.length L none) = 1) := by
  intro h
  have := h [⟨1, 1, some 99, "a", none, "x", 1, none⟩,
             ⟨2, 1, some 1, "b", none, "y", 2, none⟩]
    (by decide) (by decide) (by decide) ⟨by decide, by decide⟩
    ⟨2, 1, some 1, "b", none, "y", 2, none⟩ (by decide) 1 rfl (by decide)
  simp [build_comment_tree, countList] at this

end EndPro
